import Mathlib

/-!
Verification development for the live-session audio hook of the Ai-Tutor
repository (`useGeminiLive` plus its callers).  The stateful React hook is
shallowly embedded: every `useState`/`useRef` cell becomes a field of
`AiTutor.HookState`, each callback of the source becomes a pure function on
that state, and observable release actions (stopping the recorder, stopping
tracks, closing contexts, ...) are recorded in an explicit `Effect` log so
that idempotence of the teardown can be stated.  Times and durations on the
output audio timeline are modelled as rationals.
-/

namespace AiTutor

/-- The `ConnectionState` enumeration from `types.ts` (values used by the hook). -/
inductive ConnectionState
  | disconnected
  | connecting
  | connected
  | error
deriving DecidableEq, Repr

/-- Role of a chat message (`'user' | 'model'`). -/
inductive Role
  | user
  | model
deriving DecidableEq, Repr

/-- A `ChatMessage` record: identifier, role and text. -/
structure ChatMessage where
  id : String
  role : Role
  text : String
deriving DecidableEq, Repr

/-- Coarse fluency mood tag.  The hook itself only ever writes the
`'neutral'` literal; `other` stands for any non-neutral tag produced by the
external `analyzeFluency` utility. -/
inductive FluencyFeedback
  | neutral
  | other
deriving DecidableEq, Repr

/-- The recorder state as far as the hook observes it: the guard in the
teardown only distinguishes `'inactive'` from everything else. -/
inductive RecorderState
  | recording
  | inactive
deriving DecidableEq, Repr

/-- A scheduled `AudioBufferSourceNode`: identity (for `Set` membership and
the `ended` listener), the start time passed to `source.start`, and the
decoded buffer's duration. -/
structure Source where
  id : Nat
  start : ℚ
  dur : ℚ
deriving DecidableEq, Repr

/-- The complete mutable state of one `useGeminiLive` hook instance: all
`useState` cells and all `useRef` cells, in source order.  `srcCounter` is
model bookkeeping giving each created source node a fresh identity. -/
structure HookState where
  connectionState : ConnectionState
  volume : ℚ
  isModelSpeaking : Bool
  error : Option String
  messages : List ChatMessage
  isMuted : Bool
  fluencyFeedback : FluencyFeedback
  userTranscript : String
  inputAudioContext : Option Unit
  outputAudioContext : Option Unit
  mediaStream : Option (List Nat)
  scriptProcessor : Option Unit
  mediaRecorder : Option RecorderState
  audioChunks : List Nat
  activeSources : List Source
  nextStartTime : ℚ
  sessionPromise : Bool
  currentInput : String
  currentOutput : String
  srcCounter : Nat
deriving DecidableEq, Repr

/-- The state of a hook instance right after mounting: every cell at its
`useState`/`useRef` initial value. -/
def initState : HookState :=
  { connectionState := .disconnected
    volume := 0
    isModelSpeaking := false
    error := none
    messages := []
    isMuted := false
    fluencyFeedback := .neutral
    userTranscript := ""
    inputAudioContext := none
    outputAudioContext := none
    mediaStream := none
    scriptProcessor := none
    mediaRecorder := none
    audioChunks := []
    activeSources := []
    nextStartTime := 0
    sessionPromise := false
    currentInput := ""
    currentOutput := ""
    srcCounter := 0 }

/-- Observable release/side actions performed by the hook, recorded so that
"no duplicate release side effect" is a statement about a log rather than
about missing state changes. -/
inductive Effect
  | recorderStop
  | trackStop (id : Nat)
  | processorDisconnect
  | inputCtxClose
  | outputCtxClose
  | sourceStop (id : Nat)
  | sessionClose
  | sourceStart (id : Nat) (t : ℚ)
deriving DecidableEq, Repr

/-- JavaScript `s.includes(pat)`: `pat` occurs as a contiguous substring. -/
def jsIncludes (s pat : String) : Bool :=
  decide (pat.data <:+: s.data)

/-- JavaScript truthiness of `s.trim()`: true exactly when `s` contains a
non-whitespace character. -/
def trimTruthy (s : String) : Bool :=
  s.data.any (fun c => !c.isWhitespace)

/-- The `stopAudioProcessing` teardown (src/unnamed/part_001, lines 374-404): stop the
recorder unless already inactive; stop every stream track and drop the
stream; disconnect and drop the script processor; close and drop both audio
contexts; stop every active source (errors swallowed), clear the set; reset
cursor, speaking flag, volume, fluency tag and live transcript. -/
def stopAudioProcessing (s : HookState) : HookState × List Effect :=
  let recEff : List Effect :=
    match s.mediaRecorder with
    | some RecorderState.recording => [Effect.recorderStop]
    | _ => []
  let trackEffs : List Effect := (s.mediaStream.getD []).map Effect.trackStop
  let procEff : List Effect :=
    if s.scriptProcessor.isSome then [Effect.processorDisconnect] else []
  let inEff : List Effect :=
    if s.inputAudioContext.isSome then [Effect.inputCtxClose] else []
  let outEff : List Effect :=
    if s.outputAudioContext.isSome then [Effect.outputCtxClose] else []
  let srcEffs : List Effect := s.activeSources.map (fun src => Effect.sourceStop src.id)
  ({ s with
      mediaRecorder := s.mediaRecorder.map (fun _ => RecorderState.inactive)
      mediaStream := none
      scriptProcessor := none
      inputAudioContext := none
      outputAudioContext := none
      activeSources := []
      nextStartTime := 0
      isModelSpeaking := false
      volume := 0
      fluencyFeedback := .neutral
      userTranscript := "" },
   recEff ++ trackEffs ++ procEff ++ inEff ++ outEff ++ srcEffs)

/-- The `onclose` callback (lines 520-523): state to Disconnected, then
teardown. -/
def onclose (s : HookState) : HookState × List Effect :=
  stopAudioProcessing { s with connectionState := .disconnected }

/-- The `onerror` callback (lines 524-534): `msg = err?.message || ""`;
state to Error; `"Requested entity was not found"` / `"404"` signatures map
to the `BILLING_REQUIRED` sentinel, otherwise `msg || "Network connection
failed."` is surfaced; then teardown. -/
def onerror (errMsg : Option String) (s : HookState) : HookState × List Effect :=
  let m := errMsg.getD ""
  let surfaced : String :=
    if jsIncludes m "Requested entity was not found" || jsIncludes m "404" then
      "BILLING_REQUIRED"
    else if m = "" then "Network connection failed." else m
  stopAudioProcessing { s with connectionState := .error, error := some surfaced }

/-- The error mapping exactly as the claim words it: a 404/not-found
signature yields the billing sentinel; an absent or empty remote message
yields the generic network-failure string; anything else is surfaced
verbatim. -/
def claimSurfacedError (errMsg : Option String) : String :=
  match errMsg with
  | none => "Network connection failed."
  | some m =>
      if m = "" then "Network connection failed."
      else if jsIncludes m "Requested entity was not found" || jsIncludes m "404" then
        "BILLING_REQUIRED"
      else m

/-- One inbound `LiveServerMessage` as the handler reads it.  `audioData`:
`none` when no audio payload is present; `some none` when a payload is
present but `decodeAudioData` throws; `some (some dur)` when it decodes to a
buffer of duration `dur`.  The transcription fields model the optional
`.text` chains; `turnComplete` the boolean flag. -/
structure ServerMessage where
  audioData : Option (Option ℚ)
  inputTranscriptionText : Option String
  outputTranscriptionText : Option String
  turnComplete : Bool
deriving DecidableEq, Repr

/-- Audio branch of `onmessage` (lines 480-498): guarded by the payload and
the output context both being present; mark speaking; clamp the cursor up to
`now` (= `ctx.currentTime`); on a successful decode create a source starting
at the cursor, register it in the active set, and advance the cursor by the
buffer's duration; a decode failure is swallowed after the cursor clamp. -/
def handleAudio (now : ℚ) (audioData : Option (Option ℚ)) (s : HookState) :
    HookState × List Effect :=
  match audioData, s.outputAudioContext with
  | some payload, some _ =>
      match payload with
      | some dur =>
          ({ s with
              isModelSpeaking := true
              activeSources :=
                s.activeSources ++ [⟨s.srcCounter, max s.nextStartTime now, dur⟩]
              nextStartTime := max s.nextStartTime now + dur
              srcCounter := s.srcCounter + 1 },
           [Effect.sourceStart s.srcCounter (max s.nextStartTime now)])
      | none =>
          ({ s with isModelSpeaking := true, nextStartTime := max s.nextStartTime now }, [])
  | _, _ => (s, [])

/-- Input-transcription branch of `onmessage` (lines 500-504): on a truthy
fragment, extend the running user utterance and publish it live. -/
def handleInputTranscription (text : Option String) (s : HookState) : HookState :=
  match text with
  | some t =>
      if t = "" then s
      else { s with
              currentInput := s.currentInput ++ t
              userTranscript := s.currentInput ++ t }
  | none => s

/-- Output-transcription branch of `onmessage` (lines 505-507): on a truthy
fragment, extend the running model utterance (not published live). -/
def handleOutputTranscription (text : Option String) (s : HookState) : HookState :=
  match text with
  | some t =>
      if t = "" then s
      else { s with currentOutput := s.currentOutput ++ t }
  | none => s

/-- Turn-complete branch of `onmessage` (lines 509-518): if the accumulated
user utterance is trim-truthy, append it as a finalized user message and
clear the accumulator; then the same for the model utterance.  `dateNow`
models `Date.now()` used to build the message ids. -/
def handleTurnComplete (dateNow : Nat) (s : HookState) : HookState :=
  let s1 :=
    if trimTruthy s.currentInput then
      { s with
          messages := s.messages ++ [⟨toString dateNow ++ "-u", Role.user, s.currentInput⟩]
          currentInput := "" }
    else s
  if trimTruthy s1.currentOutput then
    { s1 with
        messages := s1.messages ++ [⟨toString dateNow ++ "-m", Role.model, s1.currentOutput⟩]
        currentOutput := "" }
  else s1

/-- The `onmessage` callback (lines 479-519): the four independent branches
in source order.  `now` is the output context's `currentTime` observed by
this invocation. -/
def onmessage (dateNow : Nat) (now : ℚ) (m : ServerMessage) (s : HookState) :
    HookState × List Effect :=
  let r := handleAudio now m.audioData s
  let s2 := handleInputTranscription m.inputTranscriptionText r.1
  let s3 := handleOutputTranscription m.outputTranscriptionText s2
  ((if m.turnComplete then handleTurnComplete dateNow s3 else s3), r.2)

/-- The `ended` listener attached to each source (lines 490-493): remove the
source from the active set; if the set became empty, clear the speaking
flag. -/
def onSourceEnded (id : Nat) (s : HookState) : HookState :=
  let srcs := s.activeSources.filter (fun src => src.id ≠ id)
  { s with
      activeSources := srcs
      isModelSpeaking := if srcs.isEmpty then false else s.isModelSpeaking }

/-- The `disconnect` function (lines 544-552): close the remote session handle if one
exists (any error from `close()` is swallowed — `closeThrows` records
whether it threw, and nothing downstream depends on it), null the handle,
tear down, force Disconnected, and return the accumulated chunks as one
blob, or nothing if none were captured. -/
def disconnect (_closeThrows : Bool) (s : HookState) :
    (HookState × List Effect) × Option (List Nat) :=
  let closeEffs : List Effect := if s.sessionPromise then [Effect.sessionClose] else []
  let s1 := { s with sessionPromise := false }
  let r := stopAudioProcessing s1
  let s2 := { r.1 with connectionState := ConnectionState.disconnected }
  ((s2, closeEffs ++ r.2), if s.audioChunks.isEmpty then none else some s.audioChunks)

/-- The setup steps of `connect` at which an exception can surface into its
`catch` block (lines 416-462). -/
inductive ConnectStep
  | openInputCtx
  | openOutputCtx
  | resumeInput
  | resumeOutput
  | getUserMedia
  | startRecorder
  | createProcessor
  | openSession
deriving DecidableEq, Repr

/-- The fallback `err.message || "Failed to initialize audio stream."` of the
`catch` block (line 538). -/
def connectFailMsg (m : Option String) : String :=
  match m with
  | some t => if t = "" then "Failed to initialize audio stream." else t
  | none => "Failed to initialize audio stream."

/-- The `catch` block of `connect` (lines 537-541): record the message, set
Error state, tear down. -/
def connectCatch (m : Option String) (s : HookState) : HookState × List Effect :=
  stopAudioProcessing
    { s with error := some (connectFailMsg m), connectionState := ConnectionState.error }

/-- The `connect` function (lines 406-542).  `fail = some (st, m)` means the setup step
`st` throws an exception whose `.message` is `m`; `fail = none` is the
successful straight-line run (the Connected transition itself happens later
in `onopen`).  `tracks` are the track ids of the stream `getUserMedia`
returns. -/
def connect (fail : Option (ConnectStep × Option String)) (tracks : List Nat)
    (s : HookState) : HookState × List Effect :=
  let failAt : ConnectStep → Option (Option String) := fun st =>
    match fail with
    | some (st', m) => if st' = st then some m else none
    | none => none
  -- lines 408-414: Connecting, clear error / messages / accumulators / chunks
  let s := { s with
      connectionState := ConnectionState.connecting
      error := none
      messages := []
      currentInput := ""
      currentOutput := ""
      userTranscript := ""
      audioChunks := [] }
  match failAt ConnectStep.openInputCtx with
  | some m => connectCatch m s
  | none =>
  let s := { s with inputAudioContext := some () }
  match failAt ConnectStep.openOutputCtx with
  | some m => connectCatch m s
  | none =>
  let s := { s with outputAudioContext := some () }
  match failAt ConnectStep.resumeInput with
  | some m => connectCatch m s
  | none =>
  match failAt ConnectStep.resumeOutput with
  | some m => connectCatch m s
  | none =>
  match failAt ConnectStep.getUserMedia with
  | some m => connectCatch m s
  | none =>
  let s := { s with mediaStream := some tracks }
  -- the recorder ref is assigned before `recorder.start()` runs
  match failAt ConnectStep.startRecorder with
  | some m => connectCatch m { s with mediaRecorder := some RecorderState.inactive }
  | none =>
  let s := { s with mediaRecorder := some RecorderState.recording }
  match failAt ConnectStep.createProcessor with
  | some m => connectCatch m s
  | none =>
  let s := { s with scriptProcessor := some () }
  match failAt ConnectStep.openSession with
  | some m => connectCatch m s
  | none =>
  ({ s with sessionPromise := true }, [])

/-- The `onopen` callback (lines 474-478): transition to Connected (the greeting send has
no hook-state effect). -/
def onopen (s : HookState) : HookState :=
  { s with connectionState := ConnectionState.connected }

/-- Every externally driven event that can run against a hook instance
during a session. -/
inductive AppEvent
  | connectEv (fail : Option (ConnectStep × Option String)) (tracks : List Nat)
  | openEv
  | msgEv (dateNow : Nat) (now : ℚ) (m : ServerMessage)
  | endedEv (id : Nat)
  | closeEv
  | errorEv (msg : Option String)
  | disconnectEv (closeThrows : Bool)
deriving Repr

/-- Dispatch of one event to the corresponding handler. -/
def stepEvent (e : AppEvent) (s : HookState) : HookState :=
  match e with
  | .connectEv fail tracks => (connect fail tracks s).1
  | .openEv => onopen s
  | .msgEv dn now m => (onmessage dn now m s).1
  | .endedEv id => onSourceEnded id s
  | .closeEv => (onclose s).1
  | .errorEv m => (onerror m s).1
  | .disconnectEv ct => ((disconnect ct s).1).1

/-- A server message carrying only an audio payload. -/
def audioOnlyMsg (audioData : Option (Option ℚ)) : ServerMessage :=
  { audioData := audioData
    inputTranscriptionText := none
    outputTranscriptionText := none
    turnComplete := false }

/-- Deliver a back-to-back sequence of inbound audio payloads to the message
handler; each list entry is the clock value observed by that invocation and
the decode outcome of its payload.  Returns the final state and the
concatenated effect log. -/
def runAudioPayloads (dateNow : Nat) (s : HookState) :
    List (ℚ × Option ℚ) → HookState × List Effect
  | [] => (s, [])
  | (now, dec) :: rest =>
      let p := onmessage dateNow now (audioOnlyMsg (some dec)) s
      let q := runAudioPayloads dateNow p.1 rest
      (q.1, p.2 ++ q.2)

/-- The scheduled start times appearing in an effect log, in order. -/
def startTimes (effs : List Effect) : List ℚ :=
  effs.filterMap fun e =>
    match e with
    | Effect.sourceStart _ t => some t
    | _ => none

/-- The "model speaking" invariant: the flag is set exactly when the active
playback set is non-empty. -/
def speakingInv (s : HookState) : Prop :=
  s.isModelSpeaking = true ↔ s.activeSources ≠ []

instance (s : HookState) : Decidable (speakingInv s) :=
  inferInstanceAs (Decidable (s.isModelSpeaking = true ↔ s.activeSources ≠ []))

/-- The two event kinds racing on the playback state: an inbound server
message and a buffer-completion notification. -/
inductive PlaybackEvent
  | msg (dateNow : Nat) (now : ℚ) (m : ServerMessage)
  | ended (id : Nat)
deriving Repr

/-- Dispatch of one playback event. -/
def stepPlayback (e : PlaybackEvent) (s : HookState) : HookState :=
  match e with
  | .msg dn now m => (onmessage dn now m s).1
  | .ended id => onSourceEnded id s

/-- A playback event whose audio payload (if any) decodes successfully. -/
def decodesOk (e : PlaybackEvent) : Prop :=
  match e with
  | .msg _ _ m => m.audioData ≠ some none
  | .ended _ => True

/-- Clamp a sample into the nominal `[-1, 1]` range. -/
def clamp1 (x : ℚ) : ℚ := max (-1) (min 1 x)

/-- Modelled from the spec: the PCM sample conversion of the audio codec
utilities (`utils/audioUtils`, not present under src/) — "convert
floating-point samples in range [-1, 1] to signed 16-bit little-endian
integers with saturation at the range boundaries".  The sample is scaled by
2^15 = 32768, rounded, and saturated into the signed 16-bit range. -/
def encodeSample (x : ℚ) : ℤ :=
  max (-32768) (min 32767 (round (x * 32768)))

/-- Modelled from the spec: the inverse PCM conversion — a signed 16-bit
integer maps back to the rational `n / 32768`. -/
def decodeSample (n : ℤ) : ℚ := (n : ℚ) / 32768

/-- Little-endian byte pair of a signed 16-bit value (two's complement). -/
def int16ToBytesLE (n : ℤ) : List Nat :=
  let u := (n % 65536).toNat
  [u % 256, u / 256]

/-- Read back a signed 16-bit value from a little-endian byte pair. -/
def bytesToInt16 (lo hi : Nat) : ℤ :=
  let u := lo + 256 * hi
  if u < 32768 then (u : ℤ) else (u : ℤ) - 65536

/-- Modelled from the spec: PCM-encode a sample sequence to its 16-bit
little-endian byte stream (the base64 transport wrapper is a bijection on
byte streams and is not modelled). -/
def pcmEncode (xs : List ℚ) : List Nat :=
  (xs.map fun x => int16ToBytesLE (encodeSample x)).flatten

/-- Modelled from the spec: PCM-decode a 16-bit little-endian byte stream
back to samples (a trailing odd byte is dropped). -/
def pcmDecodeBytes : List Nat → List ℚ
  | lo :: hi :: rest => decodeSample (bytesToInt16 lo hi) :: pcmDecodeBytes rest
  | _ => []

/-- A mid-session state with an open output context, used to instantiate
universally quantified theorems at a concrete input. -/
def liveState : HookState :=
  { initState with outputAudioContext := some () }

/-- A connected state with an open remote session handle. -/
def connectedState : HookState :=
  { initState with
      connectionState := .connected
      sessionPromise := true
      outputAudioContext := some ()
      inputAudioContext := some ()
      mediaStream := some [0]
      scriptProcessor := some ()
      mediaRecorder := some .recording }

/-- A state whose accumulated user utterance is whitespace-only. -/
def wsInputState : HookState := { initState with currentInput := " " }

/-- A state with non-trivial accumulated utterances on both sides. -/
def msgAccumState : HookState :=
  { initState with currentInput := "hi", currentOutput := "ok" }

/-- A server message with an audio payload that fails to decode. -/
def badDecodeMsg : ServerMessage := audioOnlyMsg (some none)

/-- A bare turn-complete server message. -/
def turnCompleteMsg : ServerMessage :=
  { audioData := none
    inputTranscriptionText := none
    outputTranscriptionText := none
    turnComplete := true }

/-! ## Helper lemmas -/

theorem handleAudio_fields (now : ℚ) (a : Option (Option ℚ)) (s : HookState) :
    (handleAudio now a s).1.messages = s.messages ∧
    (handleAudio now a s).1.error = s.error ∧
    (handleAudio now a s).1.connectionState = s.connectionState ∧
    (handleAudio now a s).1.currentInput = s.currentInput ∧
    (handleAudio now a s).1.currentOutput = s.currentOutput ∧
    (handleAudio now a s).1.outputAudioContext = s.outputAudioContext := by
  rcases a with _ | p
  · exact ⟨rfl, rfl, rfl, rfl, rfl, rfl⟩
  · cases h : s.outputAudioContext <;> rcases p with _ | d <;>
      simp [handleAudio, h]

theorem handleInputTranscription_fields (t : Option String) (s : HookState) :
    (handleInputTranscription t s).isModelSpeaking = s.isModelSpeaking ∧
    (handleInputTranscription t s).activeSources = s.activeSources ∧
    (handleInputTranscription t s).messages = s.messages ∧
    (handleInputTranscription t s).nextStartTime = s.nextStartTime := by
  rcases t with _ | t
  · exact ⟨rfl, rfl, rfl, rfl⟩
  · by_cases h : t = "" <;> simp [handleInputTranscription, h]

theorem handleOutputTranscription_fields (t : Option String) (s : HookState) :
    (handleOutputTranscription t s).isModelSpeaking = s.isModelSpeaking ∧
    (handleOutputTranscription t s).activeSources = s.activeSources ∧
    (handleOutputTranscription t s).messages = s.messages ∧
    (handleOutputTranscription t s).nextStartTime = s.nextStartTime := by
  rcases t with _ | t
  · exact ⟨rfl, rfl, rfl, rfl⟩
  · by_cases h : t = "" <;> simp [handleOutputTranscription, h]

theorem handleTurnComplete_fields (dn : Nat) (s : HookState) :
    (handleTurnComplete dn s).isModelSpeaking = s.isModelSpeaking ∧
    (handleTurnComplete dn s).activeSources = s.activeSources ∧
    (handleTurnComplete dn s).nextStartTime = s.nextStartTime := by
  by_cases h1 : trimTruthy s.currentInput <;>
    by_cases h2 : trimTruthy s.currentOutput <;>
      simp [handleTurnComplete, h1, h2]

/-! ## C10 — teardown frame condition -/

/-- C10: the resource-release teardown leaves the finalized chat message
list and the recorded error value (and every other non-audio cell:
connection state, mute flag, capture chunks, session handle, utterance
accumulators) unchanged, while resetting exactly the audio-related fields:
the recorder is stopped, stream / processor / contexts are dropped, the
active set is cleared, the cursor, speaking flag and volume are zeroed, the
fluency signal is neutral and the live user transcript is cleared. -/
theorem stopAudioProcessing_frame (s : HookState) :
    (stopAudioProcessing s).1.messages = s.messages ∧
    (stopAudioProcessing s).1.error = s.error ∧
    (stopAudioProcessing s).1.connectionState = s.connectionState ∧
    (stopAudioProcessing s).1.isMuted = s.isMuted ∧
    (stopAudioProcessing s).1.audioChunks = s.audioChunks ∧
    (stopAudioProcessing s).1.sessionPromise = s.sessionPromise ∧
    (stopAudioProcessing s).1.currentInput = s.currentInput ∧
    (stopAudioProcessing s).1.currentOutput = s.currentOutput ∧
    (stopAudioProcessing s).1.mediaRecorder
      = s.mediaRecorder.map (fun _ => RecorderState.inactive) ∧
    (stopAudioProcessing s).1.mediaStream = none ∧
    (stopAudioProcessing s).1.scriptProcessor = none ∧
    (stopAudioProcessing s).1.inputAudioContext = none ∧
    (stopAudioProcessing s).1.outputAudioContext = none ∧
    (stopAudioProcessing s).1.activeSources = [] ∧
    (stopAudioProcessing s).1.nextStartTime = 0 ∧
    (stopAudioProcessing s).1.isModelSpeaking = false ∧
    (stopAudioProcessing s).1.volume = 0 ∧
    (stopAudioProcessing s).1.fluencyFeedback = FluencyFeedback.neutral ∧
    (stopAudioProcessing s).1.userTranscript = "" := by
  refine ⟨rfl, rfl, rfl, rfl, rfl, rfl, rfl, rfl, rfl, rfl, rfl, rfl, rfl, rfl, rfl,
    rfl, rfl, rfl, rfl⟩

/-! ## C5 — remote error classification -/

theorem surfaced_eq (m : Option String) :
    (if jsIncludes (m.getD "") "Requested entity was not found"
        || jsIncludes (m.getD "") "404" then "BILLING_REQUIRED"
     else if m.getD "" = "" then "Network connection failed." else m.getD "")
      = claimSurfacedError m := by
  rcases m with _ | t
  · decide
  · by_cases ht : t = ""
    · subst ht; decide
    · simp [claimSurfacedError, ht]

/-- C5: for every remote error, the surfaced error string is exactly the one
the claim describes — the billing sentinel on a 404/not-found signature, the
remote message verbatim otherwise, and the generic network-failure string
when the message is absent or empty — and the connection state becomes
Error. -/
theorem onerror_classification (m : Option String) (s : HookState) :
    ((onerror m s).1).error = some (claimSurfacedError m) ∧
    ((onerror m s).1).connectionState = ConnectionState.error := by
  refine ⟨?_, rfl⟩
  show some _ = some (claimSurfacedError m)
  rw [← surfaced_eq m]

/-! ## C3 — teardown idempotence -/

/-- C3 counterexample: running the teardown once from the remote close
callback and again from the remote error callback leaves the connection
state at Error (set by the error callback), not Disconnected as the claim
states. -/
theorem teardown_twice_counterexample :
    ((onerror (some "boom") ((onclose connectedState).1)).1).connectionState
        = ConnectionState.error ∧
    ¬ ((onerror (some "boom") ((onclose connectedState).1)).1).connectionState
        = ConnectionState.disconnected := by
  decide

/-- C3 (amended): calling the teardown twice in succession produces no
release side effect that a single call does not — the second call's effect
log is empty and it leaves the state unchanged — and after the second call
the active playback set is empty, the cursor is zero and the volume is zero.
The teardown itself never modifies the connection state, so after the
close-then-error sequence the state is Error (written by the error
callback), not Disconnected. -/
theorem teardown_idempotent (s : HookState) (m : Option String) :
    (stopAudioProcessing (stopAudioProcessing s).1).2 = [] ∧
    (stopAudioProcessing (stopAudioProcessing s).1).1 = (stopAudioProcessing s).1 ∧
    (stopAudioProcessing (stopAudioProcessing s).1).1.activeSources = [] ∧
    (stopAudioProcessing (stopAudioProcessing s).1).1.nextStartTime = 0 ∧
    (stopAudioProcessing (stopAudioProcessing s).1).1.volume = 0 ∧
    (stopAudioProcessing (stopAudioProcessing s).1).1.isModelSpeaking = false ∧
    (stopAudioProcessing s).1.connectionState = s.connectionState ∧
    ((onerror m ((onclose s).1)).1).connectionState = ConnectionState.error ∧
    ((onerror m ((onclose s).1)).2) = [] := by
  cases h : s.mediaRecorder <;>
    simp_all [stopAudioProcessing, onerror, onclose]

/-! ## C4 — turn-complete finalization -/

/-- C4 counterexample: with a whitespace-only accumulated user utterance
(non-empty, so the claim demands an appended user message and a cleared
accumulator) a turn-complete signal appends nothing and leaves the
accumulator untouched, because the code tests `currentInput.trim()`. -/
theorem turnComplete_whitespace_counterexample :
    wsInputState.currentInput ≠ "" ∧
    (onmessage 0 0 turnCompleteMsg wsInputState).1.messages = wsInputState.messages ∧
    (onmessage 0 0 turnCompleteMsg wsInputState).1.currentInput
      = wsInputState.currentInput := by
  decide

/-- C4 (amended): on a turn-complete signal a finalized user message is
appended exactly when the accumulated user utterance contains a
non-whitespace character (JavaScript `trim()` truthiness) and the
accumulator is then cleared, symmetrically for the model utterance — so an
accumulator that is trim-empty and one that is trim-non-empty yield exactly
the one message of the latter's role; messages without a turn-complete
signal append nothing to the chat history. -/
theorem turnComplete_appends (dn : Nat) (now : ℚ) (s : HookState) :
    (handleTurnComplete dn s).messages =
      s.messages
        ++ (if trimTruthy s.currentInput then
              [⟨toString dn ++ "-u", Role.user, s.currentInput⟩] else [])
        ++ (if trimTruthy s.currentOutput then
              [⟨toString dn ++ "-m", Role.model, s.currentOutput⟩] else []) ∧
    (handleTurnComplete dn s).currentInput
      = (if trimTruthy s.currentInput then "" else s.currentInput) ∧
    (handleTurnComplete dn s).currentOutput
      = (if trimTruthy s.currentOutput then "" else s.currentOutput) ∧
    (∀ m : ServerMessage, m.turnComplete = false →
      (onmessage dn now m s).1.messages = s.messages) := by
  refine ⟨?_, ?_, ?_, ?_⟩
  · by_cases h1 : trimTruthy s.currentInput <;>
      by_cases h2 : trimTruthy s.currentOutput <;>
        simp [handleTurnComplete, h1, h2]
  · by_cases h1 : trimTruthy s.currentInput <;>
      by_cases h2 : trimTruthy s.currentOutput <;>
        simp [handleTurnComplete, h1, h2]
  · by_cases h1 : trimTruthy s.currentInput <;>
      by_cases h2 : trimTruthy s.currentOutput <;>
        simp [handleTurnComplete, h1, h2]
  · intro m hm
    have ha := handleAudio_fields now m.audioData s
    have hi := handleInputTranscription_fields m.inputTranscriptionText
      (handleAudio now m.audioData s).1
    have ho := handleOutputTranscription_fields m.outputTranscriptionText
      (handleInputTranscription m.inputTranscriptionText (handleAudio now m.audioData s).1)
    simp [onmessage, hm, ho.2.2.1, hi.2.2.1, ha.1]

/-- C4 witness: at a state whose user accumulator is `"hi"` and model
accumulator is `"ok"`, a turn-complete appends both messages and clears
both accumulators, and a message without the signal appends nothing. -/
theorem turnComplete_appends_witness :
    (handleTurnComplete 0 msgAccumState).messages =
      msgAccumState.messages
        ++ [⟨"0-u", Role.user, "hi"⟩] ++ [⟨"0-m", Role.model, "ok"⟩] ∧
    (audioOnlyMsg none).turnComplete = false ∧
    (onmessage 0 0 (audioOnlyMsg none) msgAccumState).1.messages
      = msgAccumState.messages := by
  have h := turnComplete_appends 0 0 msgAccumState
  exact ⟨by decide, rfl, h.2.2.2 (audioOnlyMsg none) rfl⟩

/-! ## C2 — "model speaking" iff active set non-empty -/

/-- C2 counterexample: an inbound message whose audio payload fails to
decode sets the speaking flag before the decode attempt, so after it is
fully handled the flag is true while the active playback set is empty. -/
theorem speaking_iff_active_counterexample :
    speakingInv liveState ∧
    ¬ speakingInv (stepPlayback (PlaybackEvent.msg 0 0 badDecodeMsg) liveState) := by
  constructor
  · decide
  · decide

theorem stepPlayback_inv (e : PlaybackEvent) (s : HookState)
    (hs : speakingInv s) (he : decodesOk e) : speakingInv (stepPlayback e s) := by
  cases e with
  | ended id =>
      unfold speakingInv at hs ⊢
      show (if (s.activeSources.filter (fun src => src.id ≠ id)).isEmpty then false
            else s.isModelSpeaking) = true ↔
          s.activeSources.filter (fun src => src.id ≠ id) ≠ []
      by_cases h : (s.activeSources.filter (fun src => src.id ≠ id)).isEmpty
      · rw [if_pos h, List.isEmpty_iff.mp h]
        simp
      · rw [if_neg h]
        have hne : s.activeSources.filter (fun src => src.id ≠ id) ≠ [] := by
          simpa [List.isEmpty_iff] using h
        have hsrc : s.activeSources ≠ [] := by
          intro h0
          exact hne (by simp [h0])
        exact iff_of_true (hs.mpr hsrc) hne
  | msg dn now m =>
      unfold stepPlayback onmessage
      have hi := handleInputTranscription_fields m.inputTranscriptionText
        (handleAudio now m.audioData s).1
      have ho := handleOutputTranscription_fields m.outputTranscriptionText
        (handleInputTranscription m.inputTranscriptionText (handleAudio now m.audioData s).1)
      have htc := handleTurnComplete_fields dn
        (handleOutputTranscription m.outputTranscriptionText
          (handleInputTranscription m.inputTranscriptionText (handleAudio now m.audioData s).1))
      have haud : speakingInv (handleAudio now m.audioData s).1 := by
        rcases ha : m.audioData with _ | p
        · simpa [handleAudio, ha] using hs
        · rcases hp : p with _ | dur
          · exact absurd (by rw [ha, hp]) he
          · cases hc : s.outputAudioContext with
            | none => simpa [handleAudio, ha, hp, hc] using hs
            | some u =>
                unfold speakingInv
                simp [handleAudio, ha, hp, hc]
      unfold speakingInv at haud ⊢
      by_cases htcb : m.turnComplete <;>
        simp [htcb, htc.1, htc.2.1, ho.1, ho.2.1, hi.1, hi.2.1, haud]

/-- C2 (amended): provided every audio payload in the event sequence decodes
successfully, then after any interleaving of inbound messages and
buffer-completion events — in particular completions arriving out of
schedule order — the "model speaking" flag is true exactly when the active
playback set is non-empty, whenever it was so initially. -/
theorem speaking_iff_active (evs : List PlaybackEvent) (s0 : HookState)
    (h0 : speakingInv s0) (hok : ∀ e ∈ evs, decodesOk e) :
    speakingInv (evs.foldl (fun s e => stepPlayback e s) s0) := by
  induction evs generalizing s0 with
  | nil => exact h0
  | cons e rest ih =>
      exact ih _ (stepPlayback_inv e s0 h0 (hok e (by simp)))
        (fun x hx => hok x (List.mem_cons_of_mem _ hx))

/-- C2 witness: a schedule of two buffers whose completions arrive in
reverse order keeps the flag synchronized with the set. -/
theorem speaking_iff_active_witness :
    speakingInv liveState ∧
    (∀ e ∈ [PlaybackEvent.msg 0 0 (audioOnlyMsg (some (some 1))),
            PlaybackEvent.msg 0 1 (audioOnlyMsg (some (some 1))),
            PlaybackEvent.ended 1, PlaybackEvent.ended 0], decodesOk e) ∧
    speakingInv
      ([PlaybackEvent.msg 0 0 (audioOnlyMsg (some (some 1))),
        PlaybackEvent.msg 0 1 (audioOnlyMsg (some (some 1))),
        PlaybackEvent.ended 1, PlaybackEvent.ended 0].foldl
          (fun s e => stepPlayback e s) liveState) := by
  refine ⟨by decide, ?_, ?_⟩
  · intro e he
    fin_cases he <;> simp [decodesOk, audioOnlyMsg]
  · exact speaking_iff_active _ _ (by decide)
      (by intro e he; fin_cases he <;> simp [decodesOk, audioOnlyMsg])

/-! ## C1 — gapless, never-in-the-past scheduling -/

theorem startTimes_append (l1 l2 : List Effect) :
    startTimes (l1 ++ l2) = startTimes l1 ++ startTimes l2 := by
  simp [startTimes]

theorem startTimes_start (i : Nat) (t : ℚ) (l : List Effect) :
    startTimes (Effect.sourceStart i t :: l) = t :: startTimes l := by
  simp [startTimes]

theorem onmessage_audio_noctx (dn : Nat) (now : ℚ) (dec : Option ℚ) (s : HookState)
    (h : s.outputAudioContext = none) :
    onmessage dn now (audioOnlyMsg (some dec)) s = (s, []) := by
  simp [onmessage, audioOnlyMsg, handleAudio, handleInputTranscription,
    handleOutputTranscription, h]

theorem onmessage_audio_fail (dn : Nat) (now : ℚ) (s : HookState)
    (h : s.outputAudioContext = some ()) :
    onmessage dn now (audioOnlyMsg (some none)) s =
      ({ s with isModelSpeaking := true, nextStartTime := max s.nextStartTime now }, []) := by
  simp [onmessage, audioOnlyMsg, handleAudio, handleInputTranscription,
    handleOutputTranscription, h]

theorem onmessage_audio_ok (dn : Nat) (now d : ℚ) (s : HookState)
    (h : s.outputAudioContext = some ()) :
    onmessage dn now (audioOnlyMsg (some (some d))) s =
      ({ s with
          isModelSpeaking := true
          activeSources :=
            s.activeSources ++ [⟨s.srcCounter, max s.nextStartTime now, d⟩]
          nextStartTime := max s.nextStartTime now + d
          srcCounter := s.srcCounter + 1 },
       [Effect.sourceStart s.srcCounter (max s.nextStartTime now)]) := by
  simp [onmessage, audioOnlyMsg, handleAudio, handleInputTranscription,
    handleOutputTranscription, h]

theorem runAudio_bounded (dn : Nat) (evs : List (ℚ × Option ℚ)) :
    ∀ s : HookState, (∀ p ∈ evs, ∀ d : ℚ, p.2 = some d → (0:ℚ) ≤ d) →
      List.Chain' (· ≤ ·) (startTimes (runAudioPayloads dn s evs).2) ∧
      ∀ t ∈ startTimes (runAudioPayloads dn s evs).2, s.nextStartTime ≤ t := by
  induction evs with
  | nil => intro s _; simp [runAudioPayloads, startTimes]
  | cons p rest ih =>
      rcases p with ⟨now, dec⟩
      intro s hd
      have hdrest : ∀ q ∈ rest, ∀ d : ℚ, q.2 = some d → (0:ℚ) ≤ d :=
        fun q hq => hd q (List.mem_cons_of_mem _ hq)
      cases hc : s.outputAudioContext with
      | none =>
          have hm := onmessage_audio_noctx dn now dec s hc
          simp only [runAudioPayloads, hm, List.nil_append]
          exact ih s hdrest
      | some u =>
          cases u
          cases dec with
          | none =>
              have hm := onmessage_audio_fail dn now s hc
              simp only [runAudioPayloads, hm, List.nil_append]
              have ihr := ih { s with
                isModelSpeaking := true
                nextStartTime := max s.nextStartTime now } hdrest
              refine ⟨ihr.1, fun t ht => ?_⟩
              have hb := ihr.2 t ht
              calc s.nextStartTime ≤ max s.nextStartTime now := le_max_left _ _
                _ ≤ t := hb
          | some d =>
              have hd0 : (0:ℚ) ≤ d := hd (now, some d) (by simp) d rfl
              have hm := onmessage_audio_ok dn now d s hc
              simp only [runAudioPayloads, hm, List.cons_append, List.nil_append,
                startTimes_start]
              have ihr := ih { s with
                isModelSpeaking := true
                activeSources :=
                  s.activeSources ++ [⟨s.srcCounter, max s.nextStartTime now, d⟩]
                nextStartTime := max s.nextStartTime now + d
                srcCounter := s.srcCounter + 1 } hdrest
              constructor
              · rw [List.chain'_cons']
                refine ⟨fun y hy => ?_, ihr.1⟩
                have hmem : y ∈ startTimes (runAudioPayloads dn _ rest).2 :=
                  List.mem_of_mem_head? hy
                have hb := ihr.2 y hmem
                calc max s.nextStartTime now
                    ≤ max s.nextStartTime now + d := by linarith
                  _ ≤ y := hb
              · intro t ht
                rcases List.mem_cons.mp ht with h1 | h2
                · exact h1 ▸ le_max_left _ _
                · have hb := ihr.2 t h2
                  have : s.nextStartTime ≤ max s.nextStartTime now + d := by
                    have := le_max_left s.nextStartTime now
                    linarith
                  exact le_trans this hb

/-- C1: (single payload) a created playback buffer is scheduled exactly at
`max(cursor, now)` — hence at or after both the cursor value before
scheduling and the output clock's current reading — and the cursor then
equals that start time plus the buffer's duration; (payload sequence) with
non-negative buffer durations, the scheduled start times produced by any
back-to-back sequence of inbound audio payloads are non-decreasing. -/
theorem schedule_no_overlap :
    (∀ (dn : Nat) (now dur : ℚ) (s : HookState), s.outputAudioContext = some () →
      (onmessage dn now (audioOnlyMsg (some (some dur))) s).2
          = [Effect.sourceStart s.srcCounter (max s.nextStartTime now)] ∧
      s.nextStartTime ≤ max s.nextStartTime now ∧
      now ≤ max s.nextStartTime now ∧
      (onmessage dn now (audioOnlyMsg (some (some dur))) s).1.nextStartTime
          = max s.nextStartTime now + dur) ∧
    (∀ (dn : Nat) (s : HookState) (evs : List (ℚ × Option ℚ)),
      (∀ p ∈ evs, ∀ d : ℚ, p.2 = some d → (0:ℚ) ≤ d) →
      List.Chain' (· ≤ ·) (startTimes (runAudioPayloads dn s evs).2)) := by
  constructor
  · intro dn now dur s h
    rw [onmessage_audio_ok dn now dur s h]
    exact ⟨rfl, le_max_left _ _, le_max_right _ _, rfl⟩
  · intro dn s evs hd
    exact (runAudio_bounded dn evs s hd).1

/-- C1 witness: two concrete payloads at the initial live state. -/
theorem schedule_no_overlap_witness :
    liveState.outputAudioContext = some () ∧
    (onmessage 0 5 (audioOnlyMsg (some (some 2))) liveState).2
        = [Effect.sourceStart 0 (max 0 5)] ∧
    (onmessage 0 5 (audioOnlyMsg (some (some 2))) liveState).1.nextStartTime
        = max 0 5 + 2 ∧
    List.Chain' (· ≤ ·)
      (startTimes (runAudioPayloads 0 liveState [(5, some 2), (3, some 1)]).2) := by
  have h1 := schedule_no_overlap.1 0 5 2 liveState rfl
  have h2 := schedule_no_overlap.2 0 liveState [(5, some 2), (3, some 1)]
    (by intro p hp d hd; fin_cases hp <;> simp_all <;> linarith)
  exact ⟨rfl, h1.1, h1.2.2.2, h2⟩

/-! ## C6 — disconnect contract -/

theorem sessionClose_not_in_stop (s : HookState) :
    Effect.sessionClose ∉ (stopAudioProcessing s).2 := by
  rcases hr : s.mediaRecorder with _ | r
  · simp only [stopAudioProcessing, hr]
    intro h
    simp only [List.mem_append] at h
    rcases h with ((((h | h) | h) | h) | h) | h <;> simp at h
  · cases r <;>
      · simp only [stopAudioProcessing, hr]
        intro h
        simp only [List.mem_append] at h
        rcases h with ((((h | h) | h) | h) | h) | h <;> simp at h

/-- C6: disconnect forces the connection state to Disconnected and drops
the session handle; it emits a session-close exactly when a remote handle
existed; its observable outcome is identical whether or not the remote
close throws (the error is swallowed); it returns the accumulated capture
chunks assembled into one object when at least one chunk was captured and
nothing otherwise; and all local audio resources are released. -/
theorem disconnect_contract (s : HookState) (ct : Bool) :
    ((disconnect ct s).1).1.connectionState = ConnectionState.disconnected ∧
    ((disconnect ct s).1).1.sessionPromise = false ∧
    (s.sessionPromise = true → Effect.sessionClose ∈ ((disconnect ct s).1).2) ∧
    (s.sessionPromise = false → Effect.sessionClose ∉ ((disconnect ct s).1).2) ∧
    (disconnect ct s).2 = (if s.audioChunks = [] then none else some s.audioChunks) ∧
    disconnect true s = disconnect false s ∧
    ((disconnect ct s).1).1.mediaStream = none ∧
    ((disconnect ct s).1).1.scriptProcessor = none ∧
    ((disconnect ct s).1).1.inputAudioContext = none ∧
    ((disconnect ct s).1).1.outputAudioContext = none ∧
    ((disconnect ct s).1).1.activeSources = [] := by
  refine ⟨rfl, rfl, ?_, ?_, ?_, rfl, rfl, rfl, rfl, rfl, rfl⟩
  · intro h
    simp [disconnect, h]
  · intro h
    simp only [disconnect, h, if_neg Bool.false_ne_true, List.nil_append]
    exact sessionClose_not_in_stop _
  · simp [disconnect, List.isEmpty_iff]

/-- C6 witness: with an open session handle a close is emitted; with none,
none is. -/
theorem disconnect_contract_witness :
    connectedState.sessionPromise = true ∧
    Effect.sessionClose ∈ ((disconnect false connectedState).1).2 ∧
    initState.sessionPromise = false ∧
    Effect.sessionClose ∉ ((disconnect false initState).1).2 :=
  ⟨rfl, (disconnect_contract connectedState false).2.2.1 rfl,
   rfl, (disconnect_contract initState false).2.2.2.1 rfl⟩

/-! ## C7 — connect failure path -/

/-- C7: whichever setup step of `connect` raises, and whatever (possibly
absent) message the exception carries, `connect` returns with the
connection state at Error, a human-readable message recorded, and every
partially-acquired resource released: no stream, no processor node, no
audio contexts, no active sources, and a recorder that is gone or
stopped. -/
theorem connect_failure (st : ConnectStep) (m : Option String) (tracks : List Nat)
    (s : HookState) :
    (connect (some (st, m)) tracks s).1.connectionState = ConnectionState.error ∧
    (connect (some (st, m)) tracks s).1.error = some (connectFailMsg m) ∧
    (connect (some (st, m)) tracks s).1.mediaStream = none ∧
    (connect (some (st, m)) tracks s).1.scriptProcessor = none ∧
    (connect (some (st, m)) tracks s).1.inputAudioContext = none ∧
    (connect (some (st, m)) tracks s).1.outputAudioContext = none ∧
    (connect (some (st, m)) tracks s).1.activeSources = [] ∧
    ((connect (some (st, m)) tracks s).1.mediaRecorder = none ∨
      (connect (some (st, m)) tracks s).1.mediaRecorder
        = some RecorderState.inactive) := by
  cases st <;> cases hr : s.mediaRecorder <;>
    simp [connect, connectCatch, stopAudioProcessing, hr]

/-! ## C8 — chat history is append-only -/

theorem connect_messages (fail : Option (ConnectStep × Option String))
    (tracks : List Nat) (s : HookState) :
    (connect fail tracks s).1.messages = [] := by
  rcases fail with _ | ⟨st, m⟩
  · rfl
  · cases st <;> simp [connect, connectCatch, stopAudioProcessing]

theorem handleTurnComplete_messages (dn : Nat) (s : HookState) :
    (handleTurnComplete dn s).messages =
      s.messages ++
        ((if trimTruthy s.currentInput then
            [⟨toString dn ++ "-u", Role.user, s.currentInput⟩] else []) ++
         (if trimTruthy s.currentOutput then
            [⟨toString dn ++ "-m", Role.model, s.currentOutput⟩] else [])) := by
  by_cases h1 : trimTruthy s.currentInput <;>
    by_cases h2 : trimTruthy s.currentOutput <;>
      simp [handleTurnComplete, h1, h2]

theorem onmessage_messages (dn : Nat) (now : ℚ) (m : ServerMessage) (s : HookState) :
    ∃ l : List ChatMessage,
      (onmessage dn now m s).1.messages = s.messages ++ l ∧ l.length ≤ 2 := by
  have key : ∀ s3 : HookState, s3.messages = s.messages →
      ∃ l : List ChatMessage,
        (if m.turnComplete then handleTurnComplete dn s3 else s3).messages
          = s.messages ++ l ∧ l.length ≤ 2 := by
    intro s3 h3
    by_cases hm : m.turnComplete
    · rw [if_pos hm, handleTurnComplete_messages, h3]
      refine ⟨_, rfl, ?_⟩
      by_cases h1 : trimTruthy s3.currentInput <;>
        by_cases h2 : trimTruthy s3.currentOutput <;>
          simp [h1, h2]
    · exact ⟨[], by simp [hm, h3], by simp⟩
  have hs3 : (handleOutputTranscription m.outputTranscriptionText
      (handleInputTranscription m.inputTranscriptionText
        (handleAudio now m.audioData s).1)).messages = s.messages := by
    rw [(handleOutputTranscription_fields _ _).2.2.1,
      (handleInputTranscription_fields _ _).2.2.1,
      (handleAudio_fields _ _ _).1]
  exact key _ hs3

/-- C8: every event either leaves the chat message list unchanged, appends
at most two messages at its end (one per finalized utterance), or — only
for the start of `connect` — resets it to empty; no existing entry is ever
modified or reordered, so the list order is exactly insertion order. -/
theorem messages_append_only (e : AppEvent) (s : HookState) :
    ((∃ f t, e = AppEvent.connectEv f t) ∧ (stepEvent e s).messages = []) ∨
    (∃ l, (stepEvent e s).messages = s.messages ++ l ∧ l.length ≤ 2) := by
  cases e with
  | connectEv f t => exact Or.inl ⟨⟨f, t, rfl⟩, connect_messages f t s⟩
  | openEv => exact Or.inr ⟨[], by simp [stepEvent, onopen]⟩
  | msgEv dn now m => exact Or.inr (onmessage_messages dn now m s)
  | endedEv id => exact Or.inr ⟨[], by simp [stepEvent, onSourceEnded]⟩
  | closeEv => exact Or.inr ⟨[], by simp [stepEvent, onclose, stopAudioProcessing]⟩
  | errorEv m => exact Or.inr ⟨[], by simp [stepEvent, onerror, stopAudioProcessing]⟩
  | disconnectEv ct => exact Or.inr ⟨[], by simp [stepEvent, disconnect, stopAudioProcessing]⟩

/-! ## C9 — PCM encode/decode round trip -/

theorem encodeSample_bounds (x : ℚ) :
    -32768 ≤ encodeSample x ∧ encodeSample x ≤ 32767 := by
  unfold encodeSample
  exact ⟨le_max_left _ _, max_le (by norm_num) (min_le_left _ _)⟩

theorem bytesToInt16_int16 (n : ℤ) (h1 : -32768 ≤ n) (h2 : n ≤ 32767) :
    bytesToInt16 ((n % 65536).toNat % 256) ((n % 65536).toNat / 256) = n := by
  have hnn : 0 ≤ n % 65536 := Int.emod_nonneg n (by norm_num)
  have hlt : n % 65536 < 65536 := Int.emod_lt_of_pos n (by norm_num)
  have hcast : ((n % 65536).toNat : ℤ) = n % 65536 := Int.toNat_of_nonneg hnn
  simp only [bytesToInt16]
  rw [Nat.mod_add_div]
  split <;> omega

theorem pcmDecodeBytes_block (n : ℤ) (rest : List Nat) :
    pcmDecodeBytes (int16ToBytesLE n ++ rest)
      = decodeSample (bytesToInt16 ((n % 65536).toNat % 256) ((n % 65536).toNat / 256))
          :: pcmDecodeBytes rest := rfl

theorem pcmDecode_pcmEncode (xs : List ℚ) :
    pcmDecodeBytes (pcmEncode xs)
      = xs.map (fun x => decodeSample (encodeSample x)) := by
  induction xs with
  | nil => rfl
  | cons x xs ih =>
      have hb := encodeSample_bounds x
      have heq : pcmEncode (x :: xs)
          = int16ToBytesLE (encodeSample x) ++ pcmEncode xs := by
        simp [pcmEncode]
      rw [heq, pcmDecodeBytes_block, bytesToInt16_int16 _ hb.1 hb.2, ih, List.map_cons]

theorem decode_encode_close (x : ℚ) :
    |decodeSample (encodeSample x) - clamp1 x| ≤ 1 / 32768 := by
  have key : |(encodeSample x : ℚ) - clamp1 x * 32768| ≤ 1 := by
    rcases le_or_lt x (-1) with hx | hx
    · -- saturated at the lower boundary
      have hc : clamp1 x = -1 := by
        unfold clamp1
        rw [min_eq_right (by linarith), max_eq_left hx]
      have hr : round (x * 32768) ≤ -32768 := by
        have h2 := round_le_add_half (x * 32768)
        have h3 : ((round (x * 32768) : ℤ) : ℚ) < -32767 := by
          have : x * 32768 ≤ -32768 := by linarith
          linarith
        have h4 : (round (x * 32768) : ℤ) < -32767 := by exact_mod_cast h3
        omega
      have henc : encodeSample x = -32768 := by
        unfold encodeSample
        rw [min_eq_right (by omega), max_eq_left hr]
      rw [henc, hc]
      norm_num
    · rcases le_or_lt 1 x with hx1 | hx1
      · -- saturated at the upper boundary
        have hc : clamp1 x = 1 := by
          unfold clamp1
          rw [min_eq_left hx1]
          norm_num
        have hr : 32768 ≤ round (x * 32768) := by
          have h2 := sub_half_lt_round (x * 32768)
          have h3 : (32767 : ℚ) < ((round (x * 32768) : ℤ) : ℚ) := by
            have : (32768 : ℚ) ≤ x * 32768 := by linarith
            linarith
          have h4 : (32767 : ℤ) < round (x * 32768) := by exact_mod_cast h3
          omega
        have henc : encodeSample x = 32767 := by
          unfold encodeSample
          rw [min_eq_left (by omega), max_eq_right (by norm_num)]
        rw [henc, hc]
        norm_num
      · -- in-range sample
        have hc : clamp1 x = x := by
          unfold clamp1
          rw [min_eq_right (by linarith), max_eq_right (by linarith)]
        have habs := abs_sub_round (x * 32768)
        have hup := round_le_add_half (x * 32768)
        have hdown := sub_half_lt_round (x * 32768)
        have hr2 : -32768 ≤ round (x * 32768) := by
          have h3 : (-32769 : ℚ) < ((round (x * 32768) : ℤ) : ℚ) := by
            have : (-32768 : ℚ) < x * 32768 := by linarith
            linarith
          have h4 : (-32769 : ℤ) < round (x * 32768) := by exact_mod_cast h3
          omega
        by_cases hc2 : round (x * 32768) ≤ 32767
        · have henc : encodeSample x = round (x * 32768) := by
            unfold encodeSample
            rw [min_eq_right (by exact_mod_cast hc2), max_eq_right (by exact_mod_cast hr2)]
          rw [henc, hc]
          rw [abs_sub_comm] at habs
          linarith
        · have hr3 : round (x * 32768) = 32768 := by
            have h3 : ((round (x * 32768) : ℤ) : ℚ) ≤ 32768 + 1/2 := by
              have : x * 32768 < 32768 := by linarith
              linarith
            have h4 : (round (x * 32768) : ℤ) ≤ 32768 := by
              have : ((round (x * 32768) : ℤ) : ℚ) < 32769 := by linarith
              exact_mod_cast Int.lt_add_one_iff.mp (by exact_mod_cast this)
            omega
          have henc : encodeSample x = 32767 := by
            unfold encodeSample
            rw [hr3]
            norm_num
          have hcastr : ((round (x * 32768) : ℤ) : ℚ) = 32768 := by
            rw [hr3]; norm_num
          rw [henc, hc]
          rw [abs_le]
          push_cast
          constructor
          · linarith
          · linarith [hup, hcastr]
  have hrepr : decodeSample (encodeSample x) - clamp1 x
      = ((encodeSample x : ℚ) - clamp1 x * 32768) / 32768 := by
    unfold decodeSample
    ring
  rw [hrepr, abs_div]
  rw [show |(32768:ℚ)| = 32768 by norm_num]
  linarith [key, abs_nonneg ((encodeSample x : ℚ) - clamp1 x * 32768)]

/-- C9: PCM-encoding a sample sequence and PCM-decoding the result yields a
sequence of the same length in which every sample is reproduced to within
one quantization step (1/32768) of its clamped value — the sample itself
when it lies in [-1, 1], and the saturated boundary value (not a wrapped
one) when it lies outside. -/
theorem pcm_roundtrip (xs : List ℚ) :
    (pcmDecodeBytes (pcmEncode xs)).length = xs.length ∧
    (∀ i : Nat, i < xs.length →
      |(pcmDecodeBytes (pcmEncode xs)).getD i 0 - clamp1 (xs.getD i 0)| ≤ 1 / 32768) ∧
    (∀ x : ℚ, -1 ≤ x → x ≤ 1 → clamp1 x = x) ∧
    (∀ x : ℚ, 1 < x → clamp1 x = 1) ∧
    (∀ x : ℚ, x < -1 → clamp1 x = -1) := by
  refine ⟨?_, ?_, ?_, ?_, ?_⟩
  · rw [pcmDecode_pcmEncode, List.length_map]
  · intro i hi
    rw [pcmDecode_pcmEncode]
    have hget : (xs.map (fun x => decodeSample (encodeSample x))).getD i 0
        = decodeSample (encodeSample (xs.getD i 0)) := by
      rcases List.getElem?_eq_some_iff.mpr
          ⟨hi, rfl⟩ with h
      simp [List.getD, List.getElem?_map, h]
    rw [hget]
    exact decode_encode_close _
  · intro x h1 h2
    unfold clamp1
    rw [min_eq_right h2, max_eq_right h1]
  · intro x hx
    unfold clamp1
    rw [min_eq_left hx.le]
    norm_num
  · intro x hx
    unfold clamp1
    rw [min_eq_right (by linarith), max_eq_left (by linarith)]

/-- C9 witness: an out-of-range sample is reproduced as its saturated
boundary, and the clamp behaves as claimed at concrete inputs. -/
theorem pcm_roundtrip_witness :
    (0:Nat) < [(2:ℚ)].length ∧
    |(pcmDecodeBytes (pcmEncode [(2:ℚ)])).getD 0 0 - clamp1 ([(2:ℚ)].getD 0 0)| ≤ 1 / 32768 ∧
    clamp1 (1/2) = 1/2 ∧ clamp1 2 = 1 ∧ clamp1 (-2) = -1 :=
  ⟨by norm_num,
   (pcm_roundtrip [(2:ℚ)]).2.1 0 (by norm_num),
   (pcm_roundtrip []).2.2.1 (1/2) (by norm_num) (by norm_num),
   (pcm_roundtrip []).2.2.2.1 2 (by norm_num),
   (pcm_roundtrip []).2.2.2.2 (-2) (by norm_num)⟩

end AiTutor
